import Mathlib

/-
Verification of the CT-log crawl / decode / filter / persist pipeline of
python3_cron_scripts/get_original_ct_logs.py, as a shallow embedding.

Byte strings are modelled as `List Nat` (one Nat per byte).  Python
subscription `b[i]` raises IndexError when out of range, so it is modelled in
the `Except String` monad; Python slices `b[i:j]` never raise and are
modelled by the total function `pySlice`.  The raw base64 text on the wire is
decoded by the external `base64.b64decode` collaborator; the functions below
receive the decoded byte lists directly.  The Mongo collection is modelled as
a `List CertRecord`, and a Mongo document field set `{source}_id` as an
association list from key to value.
-/

/-- Python `b[i]`: the byte at index `i`, IndexError when out of range. -/
def pyIndex (b : List Nat) (i : Nat) : Except String Nat :=
  match b.get? i with
  | some v => Except.ok v
  | none => Except.error "IndexError"

/-- Python `b[i:j]` for `0 ≤ i ≤ j`: clipped, never raises. -/
def pySlice (b : List Nat) (i j : Nat) : List Nat := (b.drop i).take (j - i)

/-- Python `int.from_bytes(b, "big")`; on the empty list it returns 0. -/
def from_bytes (b : List Nat) : Nat := b.foldl (fun acc x => acc * 256 + x) 0

/-- Model of Python `str.endswith` over the character sequences. -/
def str_endswith (s suffix : String) : Bool := suffix.data.isSuffixOf s.data

/-- The decoded leaf header built by `read_leaf_header` (source lines 197-207). -/
structure LeafHeader where
  version : Nat
  merkle_leaf_type : Nat
  timestamp : Nat
  LogEntryType : Nat
  Entry : List Nat
deriving Repr, DecidableEq

instance {α : Type} [DecidableEq α] : DecidableEq (Except String α) := fun a b =>
  match a, b with
  | Except.ok x, Except.ok y =>
      if h : x = y then isTrue (by rw [h]) else isFalse (by simp [h])
  | Except.error x, Except.error y =>
      if h : x = y then isTrue (by rw [h]) else isFalse (by simp [h])
  | Except.ok _, Except.error _ => isFalse (by simp)
  | Except.error _, Except.ok _ => isFalse (by simp)

/-- `read_leaf_header(leaf)` (source lines 197-207): `leaf[0]` and `leaf[1]`
raise IndexError on a buffer shorter than 2 bytes; the remaining fields are
built from slices, which never raise. -/
def read_leaf_header (leaf : List Nat) : Except String LeafHeader :=
  match pyIndex leaf 0 with
  | Except.error e => Except.error e
  | Except.ok v =>
    match pyIndex leaf 1 with
    | Except.error e => Except.error e
    | Except.ok t =>
      Except.ok { version := v
                  merkle_leaf_type := t
                  timestamp := from_bytes (pySlice leaf 2 10)
                  LogEntryType := from_bytes (pySlice leaf 10 12)
                  Entry := leaf.drop 12 }

/-- `get_cert_from_leaf(logger, leaf)` (source lines 210-231), applied to the
already base64-decoded leaf bytes.  Returns the optional DER bytes and the
entry type; the Python length comparison `cert_length != len(cert) - 2` is
over (possibly negative) ints, hence the cast. -/
def get_cert_from_leaf (leaf : List Nat) : Except String (Option (List Nat) × Nat) :=
  match read_leaf_header leaf with
  | Except.error e => Except.error e
  | Except.ok header =>
    let cert_type := header.LogEntryType
    if cert_type = 1 then
      Except.ok (none, cert_type)
    else
      let cert_length := from_bytes (pySlice header.Entry 0 3)
      let cert := header.Entry.drop 3
      if (cert_length : Int) ≠ (cert.length : Int) - 2 then
        Except.ok (none, cert_type)
      else
        Except.ok (some cert, cert_type)

/-- `get_cert_from_extra_data(extra_data)` (source lines 234-242), applied to
the already base64-decoded extra-data bytes.  No operation in the body can
raise. -/
def get_cert_from_extra_data (data : List Nat) : List Nat :=
  let cert_length := from_bytes (pySlice data 0 3)
  pySlice data 3 (cert_length + 4)

/-- A persisted certificate-transparency record (one Mongo document).
Per-source index fields `{source}_id` are modelled as an association list. -/
structure CertRecord where
  fingerprint_sha256 : String
  subject_organization_name : List String
  subject_common_names : List String
  subject_dns_names : List String
  not_after : Nat
  isExpired : Bool
  ct_log_type : String
  zones : List String
  sources : List String
  source_ids : List (String × Nat)
  marinus_updated : Nat
deriving Repr, DecidableEq

/-- Dictionary read: the value stored under key `k`, if any. -/
def dictGet (d : List (String × Nat)) (k : String) : Option Nat :=
  (d.find? (fun p => p.1 == k)).map (fun p => p.2)

/-- Dictionary write `d[k] = v`, preserving insertion order as Python dicts do. -/
def dictSet (d : List (String × Nat)) (k : String) (v : Nat) : List (String × Nat) :=
  if d.any (fun p => p.1 == k) then
    d.map (fun p => if p.1 == k then (k, v) else p)
  else
    d ++ [(k, v)]

/-- `check_org_relevancy(cert, ssl_orgs)` (source lines 245-251): true when
some subject organization name is tracked.  An absent
`subject_organization_name` field is the empty list. -/
def check_org_relevancy (cert : CertRecord) (ssl_orgs : List String) : Bool :=
  cert.subject_organization_name.any (fun org => ssl_orgs.contains org)

/-- The per-name zone test of `check_zone_relevancy` (source lines 264 and
271): exact equality or a proper-subdomain match on the dot boundary. -/
def zone_match (cn zone : String) : Bool := cn == zone || str_endswith cn ("." ++ zone)

/-- `check_zone_relevancy(cert, zones)` (source lines 255-275): walk the
common names, then the DNS names, appending each matched zone not already
collected.  Absent name fields are empty lists. -/
def check_zone_relevancy (cert : CertRecord) (zones : List String) : List String :=
  let cz1 := cert.subject_common_names.foldl
    (fun acc cn => zones.foldl
      (fun a zone => if zone_match cn zone then (if zone ∈ a then a else a ++ [zone]) else a)
      acc) []
  cert.subject_dns_names.foldl
    (fun acc cn => zones.foldl
      (fun a zone => if zone_match cn zone then (if zone ∈ a then a else a ++ [zone]) else a)
      acc) cz1

/-- Number of stored records carrying a given fingerprint (the
`find(...).count()` of source line 284). -/
def count_fingerprint (store : List CertRecord) (fp : String) : Nat :=
  (store.filter (fun r => r.fingerprint_sha256 == fp)).length

/-- `insert_certificate(cert, source, ct_collection, cert_zones)` (source
lines 278-300); `now` stands for the `datetime.now()` of line 296.  A missing
fingerprint inserts the document; otherwise `update_many` rewrites
`{source}_id`, `ct_log_type`, `zones` and `marinus_updated` in place and
`$addToSet`s the source. -/
def insert_certificate (cert : CertRecord) (source : String) (store : List CertRecord)
    (cert_zones : List String) (now : Nat) : List CertRecord :=
  if count_fingerprint store cert.fingerprint_sha256 = 0 then
    store ++ [cert]
  else
    store.map (fun r =>
      if r.fingerprint_sha256 == cert.fingerprint_sha256 then
        { r with
          source_ids := dictSet r.source_ids source ((dictGet cert.source_ids source).getD 0)
          ct_log_type := cert.ct_log_type
          zones := cert_zones
          marinus_updated := now
          sources := if source ∈ r.sources then r.sources else r.sources ++ [source] }
      else r)

/-- `fetch_starting_index(ct_collection, source)` (source lines 176-194):
records holding a `{source}_id` are sorted on it descending and the top value
returned, i.e. the maximum; 0 when no record for the source exists. -/
def fetch_starting_index (store : List CertRecord) (source : String) : Nat :=
  let vals := store.filterMap (fun r => dictGet r.source_ids source)
  if vals.isEmpty then 0 else vals.foldl Nat.max 0

/-- The starting-index resolution of `main` (source lines 440-443): the
`--starting_index` argument defaults to -1, and exactly the value -1 routes
to `fetch_starting_index`. -/
def resolve_starting_index (starting_index_arg : Int) (store : List CertRecord)
    (source : String) : Int :=
  if starting_index_arg = -1 then (fetch_starting_index store source : Int)
  else starting_index_arg

/-- The expiration sweep of `main` (source lines 511-515): `update_many` sets
`isExpired` on the records with `not_after` strictly before now that are not
yet flagged. -/
def expiration_sweep (now : Nat) (store : List CertRecord) : List CertRecord :=
  store.map (fun r =>
    if r.not_after < now ∧ r.isExpired = false then { r with isExpired := true } else r)

/-- Outcome of one physical `requests_retry_session().get(url, timeout=120)`
call: either a response with a status and a body, or a raised exception,
labelled by its `requests` exception class. -/
inductive GetResult where
  | connectionError : GetResult
  | httpError : GetResult
  | requestTimeout : GetResult
  | plainRequestException : GetResult
  | otherException : GetResult
  | response (status : Nat) (body : String) : GetResult
deriving Repr, DecidableEq

/-- Instance test for `requests.exceptions.ConnectionError`. -/
def is_connection_error : GetResult → Bool
  | GetResult.connectionError => true
  | _ => false

/-- Instance test for `requests.exceptions.HTTPError`. -/
def is_http_error : GetResult → Bool
  | GetResult.httpError => true
  | _ => false

/-- Instance test for `requests.exceptions.Timeout`. -/
def is_timeout : GetResult → Bool
  | GetResult.requestTimeout => true
  | _ => false

/-- Instance test for `requests.exceptions.RequestException`: the base class
of ConnectionError, HTTPError and Timeout in the requests library. -/
def is_request_exception : GetResult → Bool
  | GetResult.connectionError => true
  | GetResult.httpError => true
  | GetResult.requestTimeout => true
  | GetResult.plainRequestException => true
  | _ => false

/-- What `make_https_request` produces for its caller: `fatal` stands for
`jobs_manager.record_job_error(); exit(1)`, `absent` for `return None`. -/
inductive HttpsResult where
  | fatal : HttpsResult
  | absent : HttpsResult
  | text (body : String) : HttpsResult
deriving Repr, DecidableEq

/-- `req.raise_for_status()` raises `HTTPError` exactly on 4xx/5xx statuses. -/
def raise_for_status_raises (status : Nat) : Bool := decide (400 ≤ status)

/-- `make_https_request(logger, url, jobs_manager, download, timeout_attempt)`
(source lines 80-124) over a stream of physical GET outcomes, one consumed
per GET issued.  The except clauses of lines 87-115 are tried in source
order, each catching every subclass of its exception class; since
`requests.exceptions.Timeout` is a subclass of `RequestException`, a raised
timeout is caught by the clause of line 96, and the `except Timeout` clause
of line 101 is reachable only by an exception that is a Timeout without
being a RequestException, which the requests library never raises. -/
def make_https_request : List GetResult → Nat → HttpsResult × List GetResult
  | [], _ => (HttpsResult.fatal, [])
  | g :: rest, timeout_attempt =>
    match g with
    | GetResult.response status body =>
      if raise_for_status_raises status then (HttpsResult.absent, rest)
      else if status ≠ 200 then (HttpsResult.absent, rest)
      else (HttpsResult.text body, rest)
    | e =>
      if is_connection_error e then (HttpsResult.fatal, rest)
      else if is_http_error e then (HttpsResult.absent, rest)
      else if is_request_exception e then (HttpsResult.fatal, rest)
      else if is_timeout e then
        (if timeout_attempt = 0 then make_https_request rest 1 else (HttpsResult.fatal, rest))
      else (HttpsResult.fatal, rest)

/-- Result of `fetch_certificate_batch`: fatal abort, or the JSON body that
`json.loads` receives. -/
inductive BatchResult where
  | fatal : BatchResult
  | entries (body : String) : BatchResult
deriving Repr, DecidableEq

/-- `fetch_certificate_batch(logger, url, starting_index, ending_index,
jobs_manager)` (source lines 135-173).  The third component records the
`time.sleep` calls performed, in seconds: on an absent first result the code
sleeps 600 seconds and re-issues the request exactly once, and aborts
fatally only when the second result is also absent. -/
def fetch_certificate_batch (gets : List GetResult) : BatchResult × List GetResult × List Nat :=
  match make_https_request gets 0 with
  | (HttpsResult.fatal, rest) => (BatchResult.fatal, rest, [])
  | (HttpsResult.text body, rest) => (BatchResult.entries body, rest, [])
  | (HttpsResult.absent, rest) =>
    match make_https_request rest 0 with
    | (HttpsResult.fatal, rest2) => (BatchResult.fatal, rest2, [600])
    | (HttpsResult.text body, rest2) => (BatchResult.entries body, rest2, [600])
    | (HttpsResult.absent, rest2) => (BatchResult.fatal, rest2, [600])

/-- One entry of the `get-entries` response: the base64-decoded bytes of
`leaf_input` and of `extra_data`. -/
structure LogEntry where
  leaf_input : List Nat
  extra_data : List Nat
deriving Repr, DecidableEq

/-- The run parameters of `main` that the batch loop reads: the
`--include_precerts` flag, the log source, the tracked zones and SSL
organizations, the wall-clock instant, and the external
`x509parser.parse_data` collaborator (absent on parse failure; its first
argument is `der_cert`, which the source can pass as `None` for an unknown
entry type). -/
structure PipelineParams where
  include_precerts : Bool
  source : String
  zones : List String
  ssl_orgs : List String
  now : Nat
  parse : Option (List Nat) → String → Option CertRecord

/-- The mutable state of the batch loop of `main`: the cursor and the store. -/
structure LoopState where
  current_index : Nat
  store : List CertRecord
deriving Repr, DecidableEq

/-- The `current_index = current_index + 1` step that closes every branch of
the entry loop (source lines 472, 475, 483, 509). -/
def advance (st : LoopState) : LoopState :=
  { st with current_index := st.current_index + 1 }

/-- Source lines 480-509: parse the DER bytes, tag the log type, compute the
zone matches, and upsert when the certificate is relevant; the cursor
advances afterwards in every case. -/
def handle_cert (P : PipelineParams) (st : LoopState) (der_cert : Option (List Nat))
    (cert_type : Nat) : LoopState :=
  match P.parse der_cert P.source with
  | none => advance st
  | some cert0 =>
    let cert1 := { cert0 with
      ct_log_type := if cert_type = 1 then "PRE-CERTIFICATE" else "CERTIFICATE" }
    let cert_zones := check_zone_relevancy cert1 P.zones
    if check_org_relevancy cert1 P.ssl_orgs = true ∨ cert_zones ≠ [] then
      let cert2 := { cert1 with
        source_ids := dictSet cert1.source_ids P.source st.current_index
        zones := cert_zones }
      { current_index := st.current_index + 1
        store := insert_certificate cert2 P.source st.store cert_zones P.now }
    else advance st

/-- The body of `for entry in certs["entries"]` (source lines 469-509).  An
exception escaping `get_cert_from_leaf` propagates: nothing in `main`
catches it. -/
def process_entry (P : PipelineParams) (st : LoopState) (entry : LogEntry) :
    Except String LoopState :=
  match get_cert_from_leaf entry.leaf_input with
  | Except.error e => Except.error e
  | Except.ok (der_cert0, cert_type) =>
    if der_cert0 = none ∧ cert_type = 1 ∧ P.include_precerts = false then
      Except.ok (advance st)
    else if der_cert0 = none ∧ cert_type = 0 then
      Except.ok (advance st)
    else if der_cert0 = none ∧ cert_type = 1 then
      Except.ok (handle_cert P st (some (get_cert_from_extra_data entry.extra_data)) cert_type)
    else
      Except.ok (handle_cert P st der_cert0 cert_type)

/-- The batch loop of `main` (source lines 449-509): while the cursor is
below the tree size, fetch the window `[current_index, ending_index]` with
`ending_index = current_index + 256` clipped to the tree size, process each
returned entry in order, and continue.  `fetch` abstracts the entry list the
log returns for a window; the returned list records the windows requested,
in order.  Fuel bounds the recursion; exhaustion is reported as an error and
never occurs in the runs proved below. -/
def crawl_loop (P : PipelineParams) (fetch : Nat → Nat → List LogEntry) :
    Nat → Nat → LoopState → List (Nat × Nat) → Except String (LoopState × List (Nat × Nat))
  | 0, _, _, _ => Except.error "OutOfFuel"
  | fuel + 1, tree_size, st, windows =>
    if st.current_index < tree_size then
      let ending_index :=
        if tree_size < st.current_index + 256 then tree_size else st.current_index + 256
      match (fetch st.current_index ending_index).foldlM (process_entry P) st with
      | Except.error e => Except.error e
      | Except.ok st2 =>
        crawl_loop P fetch fuel tree_size st2 (windows ++ [(st.current_index, ending_index)])
    else
      Except.ok (st, windows)

/-- A record with every field at a neutral value, for building concrete
stores. -/
def baseRecord : CertRecord :=
  { fingerprint_sha256 := "f0"
    subject_organization_name := []
    subject_common_names := []
    subject_dns_names := []
    not_after := 0
    isExpired := false
    ct_log_type := "CERTIFICATE"
    zones := []
    sources := []
    source_ids := []
    marinus_updated := 0 }

/-- Run parameters that include precertificates and whose parser always
reports a parse failure. -/
def precertParams : PipelineParams :=
  { include_precerts := true
    source := "src"
    zones := []
    ssl_orgs := []
    now := 0
    parse := fun _ _ => none }

/-- A precertificate entry: entry type 1 in the leaf, a 7-byte extra-data
blob declaring a certificate length of 2. -/
def precertEntry : LogEntry :=
  { leaf_input := [0, 0, 0, 0, 0, 0, 0, 0, 0, 0, 0, 1]
    extra_data := [0, 0, 2, 5, 6, 7, 8] }

/-- Run parameters that skip precertificates and whose parser always reports
a parse failure. -/
def skipParams : PipelineParams :=
  { include_precerts := false
    source := "src"
    zones := []
    ssl_orgs := []
    now := 0
    parse := fun _ _ => none }

/-- An X.509 entry whose 12-byte leaf yields an empty payload, so its length
check fails (declared 0, remaining length -2) and it is skipped. -/
def mismatchEntry : LogEntry :=
  { leaf_input := [0, 0, 0, 0, 0, 0, 0, 0, 0, 0, 0, 0], extra_data := [] }

/-- A batch oracle returning one length-mismatched entry per index of the
requested window. -/
def fetchMismatch : Nat → Nat → List LogEntry :=
  fun s e => (List.range (e - s)).map (fun _ => mismatchEntry)

/-- An entry whose decoded `leaf_input` is empty: `leaf[0]` raises. -/
def emptyLeafEntry : LogEntry := { leaf_input := [], extra_data := [] }

/-- A batch oracle returning one empty-leaf entry per index of the requested
window. -/
def fetchEmptyLeaf : Nat → Nat → List LogEntry :=
  fun s e => (List.range (e - s)).map (fun _ => emptyLeafEntry)

/-- An incoming certificate for the upsert examples: fingerprint already
stored, observed at index 7 of source `src`. -/
def c3_cert : CertRecord :=
  { baseRecord with
    fingerprint_sha256 := "fp1"
    ct_log_type := "PRE-CERTIFICATE"
    source_ids := [("src", 7)]
    sources := ["src"] }

/-- A store holding one record with the same fingerprint, first seen by the
source `old`. -/
def c3_store : List CertRecord :=
  [{ baseRecord with fingerprint_sha256 := "fp1", sources := ["old"], zones := ["z0"] }]

/-- A store whose `src_id` values are 5, 12 and 9. -/
def c4_store : List CertRecord :=
  [{ baseRecord with fingerprint_sha256 := "a", source_ids := [("src", 5)] },
   { baseRecord with fingerprint_sha256 := "b", source_ids := [("src", 12)] },
   { baseRecord with fingerprint_sha256 := "c", source_ids := [("src", 9)] }]

/-- A certificate whose common names and DNS names exercise the dot-boundary
zone match. -/
def c5_cert : CertRecord :=
  { baseRecord with
    subject_common_names := ["a.b.example.com", "notexample.com"]
    subject_dns_names := ["example.com"] }

/-- A store with an expired-and-unflagged record, an unexpired record, and an
already flagged record, against the sweep instant 10. -/
def c8_store : List CertRecord :=
  [{ baseRecord with fingerprint_sha256 := "e1", not_after := 5 },
   { baseRecord with fingerprint_sha256 := "e2", not_after := 20 },
   { baseRecord with fingerprint_sha256 := "e3", not_after := 5, isExpired := true }]

/-- Reference builder for the first-seen-order deduplication step: append an
element unless it is already collected. -/
def dedup_step (a : List String) (z : String) : List String :=
  if z ∈ a then a else a ++ [z]

/-- Keep the first occurrence of every element, preserving order. -/
def dedup_first (l : List String) : List String := l.foldl dedup_step []

/-- The candidate stream of zone matches: common names first, then DNS names,
each name contributing its matching tracked zones in tracked-zone order. -/
def matched_stream (cert : CertRecord) (zones : List String) : List String :=
  (cert.subject_common_names ++ cert.subject_dns_names).flatMap
    (fun cn => zones.filter (fun zone => zone_match cn zone))

lemma foldl_zone_filter (cn : String) (zones acc : List String) :
    zones.foldl
      (fun a zone => if zone_match cn zone then (if zone ∈ a then a else a ++ [zone]) else a)
      acc
      = (zones.filter (fun zone => zone_match cn zone)).foldl dedup_step acc := by
  induction zones generalizing acc with
  | nil => rfl
  | cons z zs ih =>
    simp only [List.foldl_cons, List.filter_cons]
    cases h : zone_match cn z
    · simp only [h, Bool.false_eq_true, if_false, ih]
    · simp only [h, if_true, List.foldl_cons, ih, dedup_step]

lemma foldl_names_stream (zones names acc : List String) :
    names.foldl
      (fun acc2 cn => zones.foldl
        (fun a zone => if zone_match cn zone then (if zone ∈ a then a else a ++ [zone]) else a)
        acc2)
      acc
      = (names.flatMap (fun cn => zones.filter (fun zone => zone_match cn zone))).foldl
          dedup_step acc := by
  induction names generalizing acc with
  | nil => rfl
  | cons cn ns ih =>
    simp only [List.foldl_cons, List.flatMap_cons, List.foldl_append]
    rw [foldl_zone_filter, ih]

lemma mem_foldl_dedup (l : List String) (acc : List String) (z : String) :
    z ∈ l.foldl dedup_step acc ↔ z ∈ acc ∨ z ∈ l := by
  induction l generalizing acc with
  | nil => simp
  | cons a as ih =>
    simp only [List.foldl_cons, ih, dedup_step, List.mem_cons]
    by_cases h : a ∈ acc
    · simp only [h, if_true]
      constructor
      · tauto
      · rintro (hz | hz | hz)
        · exact Or.inl hz
        · exact Or.inl (hz ▸ h)
        · exact Or.inr hz
    · simp only [h, if_false, List.mem_append, List.mem_singleton]
      tauto

lemma nodup_foldl_dedup (l : List String) (acc : List String) (h : acc.Nodup) :
    (l.foldl dedup_step acc).Nodup := by
  induction l generalizing acc with
  | nil => exact h
  | cons a as ih =>
    simp only [List.foldl_cons]
    apply ih
    unfold dedup_step
    by_cases ha : a ∈ acc
    · simpa [ha]
    · simp only [ha, if_false]
      rw [List.nodup_append]
      refine ⟨h, List.nodup_singleton a, ?_⟩
      intro x hx hx1
      rw [List.mem_singleton] at hx1
      exact ha (hx1 ▸ hx)

lemma read_leaf_header_short (leaf : List Nat) (h : leaf.length < 2) :
    read_leaf_header leaf = Except.error "IndexError" := by
  match leaf, h with
  | [], _ => rfl
  | [a], _ => rfl

lemma read_leaf_header_of_two_le (leaf : List Nat) (h : 2 ≤ leaf.length) :
    ∃ v t, read_leaf_header leaf = Except.ok
      { version := v
        merkle_leaf_type := t
        timestamp := from_bytes (pySlice leaf 2 10)
        LogEntryType := from_bytes (pySlice leaf 10 12)
        Entry := leaf.drop 12 } := by
  match leaf, h with
  | a :: b :: rest, _ =>
    refine ⟨a, b, ?_⟩
    rfl

lemma get_cert_from_leaf_ok_some (leaf cert : List Nat) (t : Nat)
    (h : get_cert_from_leaf leaf = Except.ok (some cert, t)) :
    cert = (leaf.drop 12).drop 3 ∧
      (from_bytes (pySlice (leaf.drop 12) 0 3) : Int) = (cert.length : Int) - 2 ∧
      t = from_bytes (pySlice leaf 10 12) ∧ t ≠ 1 := by
  unfold get_cert_from_leaf at h
  cases hh : read_leaf_header leaf with
  | error e => rw [hh] at h; cases h
  | ok header =>
    rw [hh] at h
    have h2 : 2 ≤ leaf.length := by
      by_contra hlen
      push_neg at hlen
      rw [read_leaf_header_short leaf hlen] at hh
      cases hh
    obtain ⟨v, t2, hvt⟩ := read_leaf_header_of_two_le leaf h2
    rw [hvt] at hh
    obtain rfl : header = _ := (Except.ok.injEq _ _).mp hh.symm
    simp only at h
    by_cases h1 : from_bytes (pySlice leaf 10 12) = 1
    · rw [if_pos h1] at h
      simp at h
    · rw [if_neg h1] at h
      by_cases hmis : (from_bytes (pySlice (leaf.drop 12) 0 3) : Int) ≠
          (((leaf.drop 12).drop 3).length : Int) - 2
      · rw [if_pos hmis] at h
        simp at h
      · rw [if_neg hmis] at h
        push_neg at hmis
        obtain ⟨hc, ht⟩ : some ((leaf.drop 12).drop 3) = some cert ∧
            from_bytes (pySlice leaf 10 12) = t := by
          constructor
          · exact congrArg Prod.fst ((Except.ok.injEq _ _).mp h)
          · exact congrArg Prod.snd ((Except.ok.injEq _ _).mp h)
        obtain rfl : cert = (leaf.drop 12).drop 3 := (Option.some.injEq _ _).mp hc |>.symm
        refine ⟨rfl, by exact_mod_cast hmis, ht.symm, ?_⟩
        rw [← ht]
        exact h1

/-- Claim C2, counterexample: a valid X.509-entry leaf with consistent length
fields (declared length 1, payload `[0,0,1,9,8,7]`, so `1 = 3 - 2` holds)
decodes to the certificate bytes `[9,8,7]`, whose length 3 differs from the
declared 3-byte prefix 1: the returned slice keeps the two trailing
extensions-length bytes. -/
theorem leaf_cert_length_counterexample :
    get_cert_from_leaf [0, 0, 0, 0, 0, 0, 0, 0, 0, 0, 0, 0, 0, 0, 1, 9, 8, 7] =
      Except.ok (some [9, 8, 7], 0) ∧
    from_bytes (pySlice (List.drop 12 [0, 0, 0, 0, 0, 0, 0, 0, 0, 0, 0, 0, 0, 0, 1, 9, 8, 7]) 0 3)
      = 1 ∧
    ([9, 8, 7] : List Nat).length ≠ 1 := by
  refine ⟨by decide, by decide, by decide⟩

/-- Claim C2, amended: for every leaf whose decode succeeds with a
certificate (entry type 0, consistent length fields), the returned DER byte
string is the payload from offset 3 onward and its length equals the
declared 3-byte prefix plus 2 (the two trailing extensions-length bytes are
included). -/
theorem get_cert_from_leaf_returns_length_plus_two (leaf cert : List Nat) (t : Nat)
    (h : get_cert_from_leaf leaf = Except.ok (some cert, t)) :
    cert = (leaf.drop 12).drop 3 ∧
    cert.length = from_bytes (pySlice (leaf.drop 12) 0 3) + 2 ∧ t ≠ 1 := by
  obtain ⟨hc, hlen, ht, ht1⟩ := get_cert_from_leaf_ok_some leaf cert t h
  exact ⟨hc, by omega, ht1⟩

/-- Claim C2, witness: the amended theorem evaluated on the concrete
consistent leaf. -/
theorem get_cert_from_leaf_length_witness :
    ([9, 8, 7] : List Nat).length =
      from_bytes (pySlice (List.drop 12 [0, 0, 0, 0, 0, 0, 0, 0, 0, 0, 0, 0, 0, 0, 1, 9, 8, 7]) 0 3)
        + 2 :=
  (get_cert_from_leaf_returns_length_plus_two
    [0, 0, 0, 0, 0, 0, 0, 0, 0, 0, 0, 0, 0, 0, 1, 9, 8, 7] [9, 8, 7] 0 (by decide)).2.1

/-- Claim C9, counterexample: on the empty input buffer the leaf decode does
not return a skippable error value — `leaf[0]` raises IndexError, modelled
as the error of the `Except` monad, and the entry loop of `main` propagates
it (nothing catches it), so the run aborts instead of skipping the entry. -/
theorem get_cert_from_leaf_empty_raises :
    get_cert_from_leaf [] = Except.error "IndexError" ∧
    process_entry skipParams { current_index := 0, store := [] } emptyLeafEntry =
      Except.error "IndexError" := by
  exact ⟨rfl, rfl⟩

/-- Claim C9, amended: an input buffer of length 2 to 11 decodes without
raising and yields an absent certificate with the entry type read from the
partial bytes, so the caller proceeds non-fatally; a buffer shorter than 2
bytes raises an unhandled IndexError. -/
theorem read_leaf_header_short_buffer_spec (leaf : List Nat) (h12 : leaf.length < 12) :
    (leaf.length < 2 → get_cert_from_leaf leaf = Except.error "IndexError") ∧
    (2 ≤ leaf.length →
      get_cert_from_leaf leaf = Except.ok (none, from_bytes (pySlice leaf 10 12))) := by
  constructor
  · intro h2
    unfold get_cert_from_leaf
    rw [read_leaf_header_short leaf h2]
  · intro h2
    obtain ⟨v, t, hvt⟩ := read_leaf_header_of_two_le leaf h2
    unfold get_cert_from_leaf
    rw [hvt]
    simp only
    have hEntry : leaf.drop 12 = [] := List.drop_eq_nil_of_le (le_of_lt h12)
    rw [hEntry]
    by_cases h1 : from_bytes (pySlice leaf 10 12) = 1
    · rw [if_pos h1, h1]
    · rw [if_neg h1, if_pos (by norm_num [from_bytes, pySlice])]

/-- Claim C9, witness: the amended theorem evaluated on a 1-byte and a
3-byte buffer. -/
theorem read_leaf_header_short_buffer_witness :
    get_cert_from_leaf [5] = Except.error "IndexError" ∧
    get_cert_from_leaf [0, 0, 0] = Except.ok (none, from_bytes (pySlice [0, 0, 0] 10 12)) :=
  ⟨(read_leaf_header_short_buffer_spec [5] (by decide)).1 (by decide),
   (read_leaf_header_short_buffer_spec [0, 0, 0] (by decide)).2 (by decide)⟩

/-- Claim C10: precertificate extraction never fails or skips — for every
extra-data input it returns the slice `[3 : L+4]` of the decoded bytes,
which is silently shorter than `L+1` bytes (and empty for inputs of at most
3 bytes) whenever fewer than `L+4` bytes are present. -/
theorem get_cert_from_extra_data_total_spec (data : List Nat) :
    get_cert_from_extra_data data =
      pySlice data 3 (from_bytes (pySlice data 0 3) + 4) ∧
    (get_cert_from_extra_data data).length =
      min (from_bytes (pySlice data 0 3) + 1) (data.length - 3) ∧
    (data.length < from_bytes (pySlice data 0 3) + 4 →
      (get_cert_from_extra_data data).length < from_bytes (pySlice data 0 3) + 1) ∧
    (data.length ≤ 3 → get_cert_from_extra_data data = []) := by
  have hlen : (get_cert_from_extra_data data).length =
      min (from_bytes (pySlice data 0 3) + 1) (data.length - 3) := by
    unfold get_cert_from_extra_data pySlice
    rw [List.length_take, List.length_drop]
    congr 1
  refine ⟨rfl, hlen, ?_, ?_⟩
  · intro hshort
    rw [hlen]
    omega
  · intro h3
    unfold get_cert_from_extra_data pySlice
    rw [List.drop_eq_nil_of_le h3, List.take_nil]

/-- Claim C10, witness: the length-shortfall conclusion evaluated on a
5-byte blob declaring certificate length 2. -/
theorem get_cert_from_extra_data_total_witness :
    ([0, 0, 2, 9, 9] : List Nat).length < from_bytes (pySlice [0, 0, 2, 9, 9] 0 3) + 4 ∧
    (get_cert_from_extra_data [0, 0, 2, 9, 9]).length <
      from_bytes (pySlice [0, 0, 2, 9, 9] 0 3) + 1 :=
  ⟨by decide, (get_cert_from_extra_data_total_spec [0, 0, 2, 9, 9]).2.2.1 (by decide)⟩

/-- Claim C6: a precertificate entry (entry type 1) processed with
`include_precerts` set hands the parser exactly
`get_cert_from_extra_data(extra_data)`, and that certificate is the slice
`[3 : L+4]` of the decoded extra-data bytes — `L+1` bytes when available,
never the `L`-byte slice `[3 : L+3]`. -/
theorem get_cert_from_extra_data_slice_spec (P : PipelineParams) (st : LoopState)
    (entry : LogEntry) (hpre : P.include_precerts = true)
    (hleaf : get_cert_from_leaf entry.leaf_input = Except.ok (none, 1)) :
    process_entry P st entry =
      Except.ok (handle_cert P st (some (get_cert_from_extra_data entry.extra_data)) 1) ∧
    get_cert_from_extra_data entry.extra_data =
      (entry.extra_data.drop 3).take (from_bytes (pySlice entry.extra_data 0 3) + 1) ∧
    (from_bytes (pySlice entry.extra_data 0 3) + 4 ≤ entry.extra_data.length →
      (get_cert_from_extra_data entry.extra_data).length =
          from_bytes (pySlice entry.extra_data 0 3) + 1 ∧
      get_cert_from_extra_data entry.extra_data ≠
        pySlice entry.extra_data 3 (from_bytes (pySlice entry.extra_data 0 3) + 3)) := by
  refine ⟨?_, ?_, ?_⟩
  · unfold process_entry
    rw [hleaf]
    simp [hpre]
  · unfold get_cert_from_extra_data pySlice
    congr 1
  · intro havail
    have hlen := (get_cert_from_extra_data_total_spec entry.extra_data).2.1
    constructor
    · rw [hlen]
      omega
    · intro heq
      have hlen2 : (pySlice entry.extra_data 3 (from_bytes (pySlice entry.extra_data 0 3) + 3)).length =
          min (from_bytes (pySlice entry.extra_data 0 3)) (entry.extra_data.length - 3) := by
        unfold pySlice
        rw [List.length_take, List.length_drop]
        congr 1
      have := congrArg List.length heq
      rw [hlen, hlen2] at this
      omega

/-- Claim C6, witness: the slice conclusions evaluated on a concrete
precertificate entry with a 7-byte extra-data blob declaring length 2. -/
theorem get_cert_from_extra_data_slice_witness :
    process_entry precertParams { current_index := 0, store := [] } precertEntry =
      Except.ok (handle_cert precertParams { current_index := 0, store := [] }
        (some (get_cert_from_extra_data precertEntry.extra_data)) 1) ∧
    get_cert_from_extra_data precertEntry.extra_data =
      (precertEntry.extra_data.drop 3).take
        (from_bytes (pySlice precertEntry.extra_data 0 3) + 1) :=
  ⟨(get_cert_from_extra_data_slice_spec precertParams { current_index := 0, store := [] }
      precertEntry rfl (by decide)).1,
   (get_cert_from_extra_data_slice_spec precertParams { current_index := 0, store := [] }
      precertEntry rfl (by decide)).2.1⟩

/-- Claim C5: the zone filter returns exactly the tracked zones matched by
some candidate name (common names first, then DNS names) on the dot
boundary, without duplicates and in first-seen order, and the match is never
a bare substring match. -/
theorem check_zone_relevancy_spec (cert : CertRecord) (zones : List String) :
    check_zone_relevancy cert zones = dedup_first (matched_stream cert zones) ∧
    (∀ z, z ∈ check_zone_relevancy cert zones ↔
      z ∈ zones ∧ ∃ cn ∈ cert.subject_common_names ++ cert.subject_dns_names,
        zone_match cn z = true) ∧
    (check_zone_relevancy cert zones).Nodup ∧
    zone_match "a.b.example.com" "example.com" = true ∧
    zone_match "notexample.com" "example.com" = false := by
  have heq : check_zone_relevancy cert zones = dedup_first (matched_stream cert zones) := by
    simp only [check_zone_relevancy, dedup_first, matched_stream]
    rw [foldl_names_stream, foldl_names_stream, List.flatMap_append, List.foldl_append]
  refine ⟨heq, ?_, ?_, by decide, by decide⟩
  · intro z
    rw [heq]
    unfold dedup_first
    rw [mem_foldl_dedup]
    simp only [List.not_mem_nil, false_or]
    unfold matched_stream
    rw [List.mem_flatMap]
    constructor
    · rintro ⟨cn, hcn, hz⟩
      rw [List.mem_filter] at hz
      exact ⟨hz.1, cn, hcn, hz.2⟩
    · rintro ⟨hz, cn, hcn, hm⟩
      exact ⟨cn, hcn, List.mem_filter.mpr ⟨hz, hm⟩⟩
  · rw [heq]
    exact nodup_foldl_dedup _ _ List.nodup_nil

/-- Claim C5, witness: the membership characterization evaluated on a
certificate naming `a.b.example.com` and `notexample.com` against the
tracked zone `example.com`. -/
theorem check_zone_relevancy_witness :
    check_zone_relevancy c5_cert ["example.com"] = ["example.com"] ∧
    ("example.com" ∈ check_zone_relevancy c5_cert ["example.com"] ↔
      "example.com" ∈ ["example.com"] ∧
      ∃ cn ∈ c5_cert.subject_common_names ++ c5_cert.subject_dns_names,
        zone_match cn "example.com" = true) :=
  ⟨by decide, (check_zone_relevancy_spec c5_cert ["example.com"]).2.1 "example.com"⟩

lemma dictGet_dictSet_self (d : List (String × Nat)) (k : String) (v : Nat) :
    dictGet (dictSet d k v) k = some v := by
  unfold dictSet
  by_cases h : d.any (fun p => p.1 == k)
  · rw [if_pos h]
    unfold dictGet
    induction d with
    | nil => simp at h
    | cons p ps ih =>
      by_cases hp : p.1 == k
      · simp only [List.map_cons, hp, if_true, List.find?_cons, beq_self_eq_true]
        rfl
      · simp only [List.map_cons, hp, Bool.false_eq_true, if_false, List.find?_cons]
        have hps : ps.any (fun p => p.1 == k) = true := by
          simp only [List.any_cons, hp, Bool.false_or] at h
          exact h
        exact ih hps
  · rw [if_neg h]
    unfold dictGet
    rw [List.find?_append]
    have hnone : d.find? (fun p => p.1 == k) = none := by
      rw [List.find?_eq_none]
      intro x hx hpx
      exact h (List.any_eq_true.mpr ⟨x, hx, hpx⟩)
    rw [hnone]
    simp [List.find?_cons]

lemma count_fingerprint_map (u : CertRecord → CertRecord) (store : List CertRecord)
    (fp : String) (hu : ∀ r, (u r).fingerprint_sha256 = r.fingerprint_sha256) :
    count_fingerprint (store.map u) fp = count_fingerprint store fp := by
  unfold count_fingerprint
  induction store with
  | nil => rfl
  | cons r rs ih =>
    simp only [List.map_cons, List.filter_cons, hu r]
    by_cases hr : (r.fingerprint_sha256 == fp) = true
    · simp only [hr, if_true, List.length_cons, ih]
    · simp only [hr, Bool.false_eq_true, if_false, ih]

/-- Claim C3: upserting a fingerprint already stored never creates a second
record — the count and the store length are preserved, every record with the
fingerprint is updated in place (`{source}_id`, `ct_log_type`, overwritten
`zones`, `marinus_updated`, the source added to `sources` as a union that
never drops an earlier source), every other record is untouched — while a
fingerprint not present is inserted as a new record. -/
theorem insert_certificate_upsert_spec (cert : CertRecord) (source : String)
    (store : List CertRecord) (cert_zones : List String) (now v : Nat)
    (hv : dictGet cert.source_ids source = some v) :
    ((∃ r ∈ store, r.fingerprint_sha256 = cert.fingerprint_sha256) →
      count_fingerprint (insert_certificate cert source store cert_zones now)
          cert.fingerprint_sha256
        = count_fingerprint store cert.fingerprint_sha256 ∧
      (insert_certificate cert source store cert_zones now).length = store.length ∧
      (∀ i r r2, store.get? i = some r →
        (insert_certificate cert source store cert_zones now).get? i = some r2 →
        (r.fingerprint_sha256 = cert.fingerprint_sha256 →
          dictGet r2.source_ids source = some v ∧
          r2.ct_log_type = cert.ct_log_type ∧
          r2.zones = cert_zones ∧
          r2.marinus_updated = now ∧
          source ∈ r2.sources ∧
          (∀ s, s ∈ r.sources → s ∈ r2.sources) ∧
          r2.fingerprint_sha256 = r.fingerprint_sha256 ∧
          r2.isExpired = r.isExpired) ∧
        (r.fingerprint_sha256 ≠ cert.fingerprint_sha256 → r2 = r))) ∧
    (count_fingerprint store cert.fingerprint_sha256 = 0 →
      insert_certificate cert source store cert_zones now = store ++ [cert] ∧
      count_fingerprint (store ++ [cert]) cert.fingerprint_sha256 = 1) := by
  constructor
  · rintro ⟨r0, hr0, hfp0⟩
    have hne : count_fingerprint store cert.fingerprint_sha256 ≠ 0 := by
      unfold count_fingerprint
      intro hzero
      rw [List.length_eq_zero, List.filter_eq_nil_iff] at hzero
      exact hzero r0 hr0 (by simp [hfp0])
    unfold insert_certificate
    rw [if_neg hne]
    refine ⟨count_fingerprint_map _ store _ ?_, List.length_map store _, ?_⟩
    · intro r
      by_cases hr : (r.fingerprint_sha256 == cert.fingerprint_sha256) = true
      · simp only [hr, if_true]
      · simp only [hr, Bool.false_eq_true, if_false]
    · intro i r r2 hi hi2
      rw [List.get?_eq_getElem?] at hi hi2
      rw [List.getElem?_map, hi] at hi2
      simp only [Option.map_some', Option.some.injEq] at hi2
      constructor
      · intro hmatch
        have hcond : (r.fingerprint_sha256 == cert.fingerprint_sha256) = true := by
          simp [hmatch]
        rw [hcond] at hi2
        simp only [if_true] at hi2
        subst hi2
        refine ⟨?_, rfl, rfl, rfl, ?_, ?_, rfl, rfl⟩
        · rw [dictGet_dictSet_self, hv]
          rfl
        · by_cases hs : source ∈ r.sources
          · simp [hs]
          · simp [hs]
        · intro s hs
          by_cases hmem : source ∈ r.sources
          · simpa [hmem] using hs
          · simp only [hmem, if_false]
            exact List.mem_append_left _ hs
      · intro hmiss
        have hcond : (r.fingerprint_sha256 == cert.fingerprint_sha256) = false := by
          simp [hmiss]
        rw [hcond] at hi2
        simp only [Bool.false_eq_true, if_false] at hi2
        exact hi2.symm
  · intro hzero
    unfold insert_certificate
    rw [if_pos hzero]
    refine ⟨rfl, ?_⟩
    unfold count_fingerprint at hzero ⊢
    rw [List.filter_append]
    simp [hzero, List.length_eq_zero.mp hzero]

/-- Claim C3, witness: the present-fingerprint conclusions evaluated on a
one-record store holding the incoming fingerprint from an earlier source. -/
theorem insert_certificate_upsert_witness :
    (∃ r ∈ c3_store, r.fingerprint_sha256 = c3_cert.fingerprint_sha256) ∧
    count_fingerprint (insert_certificate c3_cert "src" c3_store ["z1"] 99)
        c3_cert.fingerprint_sha256
      = count_fingerprint c3_store c3_cert.fingerprint_sha256 := by
  refine ⟨by decide, ?_⟩
  exact ((insert_certificate_upsert_spec c3_cert "src" c3_store ["z1"] 99 7
    (by decide)).1 (by decide)).1

lemma le_foldl_max (xs : List Nat) : ∀ x y : Nat, y ∈ x :: xs → y ≤ xs.foldl Nat.max x := by
  induction xs with
  | nil =>
    intro x y hy
    rw [List.mem_singleton] at hy
    exact le_of_eq hy
  | cons a as ih =>
    intro x y hy
    rw [List.foldl_cons]
    rcases List.mem_cons.mp hy with h1 | h2
    · subst h1
      exact le_trans (Nat.le_max_left y a)
        (ih (Nat.max y a) (Nat.max y a) (List.mem_cons_self _ _))
    · rcases List.mem_cons.mp h2 with h3 | h4
      · subst h3
        exact le_trans (Nat.le_max_right x y)
          (ih (Nat.max x y) (Nat.max x y) (List.mem_cons_self _ _))
      · exact ih (Nat.max x a) y (List.mem_cons_of_mem _ h4)

lemma foldl_max_mem (xs : List Nat) : ∀ x : Nat, xs.foldl Nat.max x ∈ x :: xs := by
  induction xs with
  | nil =>
    intro x
    exact List.mem_singleton.mpr rfl
  | cons a as ih =>
    intro x
    rw [List.foldl_cons]
    have h := ih (Nat.max x a)
    rcases List.mem_cons.mp h with h1 | h2
    · rw [h1]
      rcases max_choice x a with hx | ha
      · rw [show Nat.max x a = x from hx]
        exact List.mem_cons_self _ _
      · rw [show Nat.max x a = a from ha]
        exact List.mem_cons.mpr (Or.inr (List.mem_cons_self _ _))
    · exact List.mem_cons.mpr (Or.inr (List.mem_cons.mpr (Or.inr h2)))

/-- Claim C4, counterexample: with stored `src_id` values 5, 12 and 9, the
high-water mark is 12, yet the explicit override -2 — supplied and negative —
is used as the starting index verbatim (the code only treats the sentinel
value -1 as unsupplied), where the claim requires the high-water mark. -/
theorem resolve_starting_index_counterexample :
    resolve_starting_index (-2) c4_store "src" = -2 ∧
    fetch_starting_index c4_store "src" = 12 ∧
    ((-2 : Int) ≠ (12 : Int)) := by
  refine ⟨by decide, by decide, by decide⟩

/-- Claim C4, amended: the starting index equals the explicit override
whenever it differs from the sentinel -1 (so also for negative overrides);
with the override at its -1 default, it is the maximum stored `{source}_id`
(12 for the stored values 5, 12, 9), and 0 when no record for the source
exists. -/
theorem resolve_starting_index_spec (override : Int) (store : List CertRecord)
    (source : String) :
    (override = -1 →
      resolve_starting_index override store source = (fetch_starting_index store source : Int)) ∧
    (override ≠ -1 → resolve_starting_index override store source = override) ∧
    (store.filterMap (fun r => dictGet r.source_ids source) = [] →
      fetch_starting_index store source = 0) ∧
    (∀ v, v ∈ store.filterMap (fun r => dictGet r.source_ids source) →
      v ≤ fetch_starting_index store source) ∧
    (store.filterMap (fun r => dictGet r.source_ids source) ≠ [] →
      fetch_starting_index store source ∈
        store.filterMap (fun r => dictGet r.source_ids source)) := by
  refine ⟨?_, ?_, ?_, ?_, ?_⟩
  · intro h
    unfold resolve_starting_index
    rw [if_pos h]
  · intro h
    unfold resolve_starting_index
    rw [if_neg h]
  · intro h
    unfold fetch_starting_index
    simp only [h, List.isEmpty_nil, if_true]
  · intro v hv
    unfold fetch_starting_index
    cases hvals : store.filterMap (fun r => dictGet r.source_ids source) with
    | nil => rw [hvals] at hv; cases hv
    | cons w ws =>
      rw [hvals] at hv
      simp only [List.isEmpty_cons, if_false, List.foldl_cons, Bool.false_eq_true]
      have hzw : Nat.max 0 w = w := Nat.zero_max w
      rw [hzw]
      exact le_foldl_max ws w v hv
  · intro h
    unfold fetch_starting_index
    cases hvals : store.filterMap (fun r => dictGet r.source_ids source) with
    | nil => exact absurd hvals h
    | cons w ws =>
      simp only [List.isEmpty_cons, if_false, List.foldl_cons, Bool.false_eq_true]
      have hzw : Nat.max 0 w = w := Nat.zero_max w
      rw [hzw]
      exact foldl_max_mem ws w

/-- Claim C4, witness: resolution with the default -1 override on the store
with values 5, 12, 9 routes to the high-water mark 12. -/
theorem resolve_starting_index_witness :
    resolve_starting_index (-1) c4_store "src" = (fetch_starting_index c4_store "src" : Int) ∧
    fetch_starting_index c4_store "src" = 12 :=
  ⟨(resolve_starting_index_spec (-1) c4_store "src").1 rfl, by decide⟩

lemma sweep_step_isExpired (now : Nat) (r : CertRecord) :
    (if r.not_after < now ∧ r.isExpired = false then { r with isExpired := true } else r).isExpired
      = (r.isExpired || decide (r.not_after < now)) := by
  by_cases h1 : r.not_after < now
  · by_cases h2 : r.isExpired
    · simp [h1, h2]
    · simp [h1, h2]
  · by_cases h2 : r.isExpired
    · simp [h1, h2]
    · simp [h1, h2]

lemma sweep_step_idem (now : Nat) (r : CertRecord) :
    (fun r0 : CertRecord =>
      if r0.not_after < now ∧ r0.isExpired = false then { r0 with isExpired := true } else r0)
      ((fun r0 : CertRecord =>
        if r0.not_after < now ∧ r0.isExpired = false then { r0 with isExpired := true } else r0) r)
    = (fun r0 : CertRecord =>
      if r0.not_after < now ∧ r0.isExpired = false then { r0 with isExpired := true } else r0) r := by
  by_cases h : r.not_after < now ∧ r.isExpired = false
  · simp only [h, if_true]
    simp
  · simp only [h, if_false]

/-- Claim C8: the sweep flips `isExpired` to true for exactly the records
with `not_after` before now that are not yet flagged, leaves every other
record unchanged (already flagged records included), is idempotent, and no
pipeline operation — sweep or upsert — ever unsets `isExpired` on a stored
record. -/
theorem expiration_sweep_spec (now : Nat) (store : List CertRecord) :
    (expiration_sweep now store).length = store.length ∧
    (∀ i, ((expiration_sweep now store).get? i).map (fun r => r.isExpired)
      = (store.get? i).map (fun r => r.isExpired || decide (r.not_after < now))) ∧
    (∀ i r, store.get? i = some r → r.isExpired = true →
      (expiration_sweep now store).get? i = some r) ∧
    (∀ i r, store.get? i = some r → ¬ r.not_after < now →
      (expiration_sweep now store).get? i = some r) ∧
    (∀ i r, store.get? i = some r →
      (expiration_sweep now store).get? i = some r ∨
      (expiration_sweep now store).get? i = some { r with isExpired := true }) ∧
    expiration_sweep now (expiration_sweep now store) = expiration_sweep now store ∧
    (∀ (cert : CertRecord) (source : String) (zs : List String) (n2 : Nat) i r,
      store.get? i = some r →
      ((insert_certificate cert source store zs n2).get? i).map (fun r2 => r2.isExpired)
        = some r.isExpired) := by
  refine ⟨List.length_map store _, ?_, ?_, ?_, ?_, ?_, ?_⟩
  · intro i
    unfold expiration_sweep
    rw [List.get?_eq_getElem?, List.get?_eq_getElem?, List.getElem?_map]
    cases h : store[i]? with
    | none => rfl
    | some r =>
      simp only [Option.map_some', Option.some.injEq]
      exact sweep_step_isExpired now r
  · intro i r hi hexp
    unfold expiration_sweep
    rw [List.get?_eq_getElem?] at hi ⊢
    rw [List.getElem?_map, hi]
    simp [hexp]
  · intro i r hi hlt
    unfold expiration_sweep
    rw [List.get?_eq_getElem?] at hi ⊢
    rw [List.getElem?_map, hi]
    simp [hlt]
  · intro i r hi
    unfold expiration_sweep
    rw [List.get?_eq_getElem?] at hi ⊢
    rw [List.getElem?_map, hi]
    by_cases h : r.not_after < now ∧ r.isExpired = false
    · right
      simp [h]
    · left
      simp [h]
  · unfold expiration_sweep
    rw [List.map_map]
    apply List.map_congr_left
    intro r _
    exact sweep_step_idem now r
  · intro cert source zs n2 i r hi
    unfold insert_certificate
    rw [List.get?_eq_getElem?] at hi ⊢
    by_cases h : count_fingerprint store cert.fingerprint_sha256 = 0
    · rw [if_pos h]
      rw [List.getElem?_append_left (List.getElem?_eq_some_iff.mp hi).1, hi]
      rfl
    · rw [if_neg h]
      rw [List.getElem?_map, hi]
      simp only [Option.map_some', Option.some.injEq]
      by_cases hfp : (r.fingerprint_sha256 == cert.fingerprint_sha256) = true
      · simp only [hfp, if_true]
      · simp only [hfp, Bool.false_eq_true, if_false]

/-- Claim C8, witness: the sweep at instant 10 on a three-record store —
expired-and-unflagged, unexpired, already flagged — with the idempotence and
flag conclusions instantiated. -/
theorem expiration_sweep_witness :
    expiration_sweep 10 (expiration_sweep 10 c8_store) = expiration_sweep 10 c8_store ∧
    ((expiration_sweep 10 c8_store).get? 0).map (fun r => r.isExpired)
      = (c8_store.get? 0).map (fun r => r.isExpired || decide (r.not_after < 10)) ∧
    (c8_store.get? 1).map (fun r => r.isExpired) = some false := by
  refine ⟨(expiration_sweep_spec 10 c8_store).2.2.2.2.2.1,
    (expiration_sweep_spec 10 c8_store).2.1 0, by decide⟩

/-- Claim C7: evaluation of the retry policy.  A raised request timeout is
caught by the `except RequestException` clause — `Timeout` subclasses
`RequestException` and that clause is tried first — so the very first
timeout aborts fatally and the immediate-retry handler is dead code, even
when a successful response would be available to the retry; an HTTP error
status still yields an absent result non-fatally, the batch fetch then
sleeps 600 seconds and retries exactly once, aborting only if the retry also
fails, and connection errors and unclassified request exceptions are fatal
immediately. -/
theorem make_https_request_timeout_fatal :
    make_https_request [GetResult.requestTimeout] 0 = (HttpsResult.fatal, []) ∧
    make_https_request [GetResult.requestTimeout, GetResult.response 200 "ok"] 0 =
      (HttpsResult.fatal, [GetResult.response 200 "ok"]) ∧
    is_timeout GetResult.requestTimeout = true ∧
    is_request_exception GetResult.requestTimeout = true ∧
    make_https_request [GetResult.connectionError] 0 = (HttpsResult.fatal, []) ∧
    make_https_request [GetResult.plainRequestException] 0 = (HttpsResult.fatal, []) ∧
    make_https_request [GetResult.response 404 "x"] 0 = (HttpsResult.absent, []) ∧
    make_https_request [GetResult.response 200 "ok"] 0 = (HttpsResult.text "ok", []) ∧
    fetch_certificate_batch [GetResult.response 404 "x", GetResult.response 200 "b"] =
      (BatchResult.entries "b", [], [600]) ∧
    fetch_certificate_batch [GetResult.response 404 "x", GetResult.response 404 "y"] =
      (BatchResult.fatal, [], [600]) ∧
    fetch_certificate_batch [GetResult.response 200 "b"] =
      (BatchResult.entries "b", [], []) := by
  refine ⟨rfl, rfl, rfl, rfl, rfl, rfl, rfl, rfl, rfl, rfl, rfl⟩

lemma handle_cert_current_index (P : PipelineParams) (st : LoopState)
    (der_cert : Option (List Nat)) (cert_type : Nat) :
    (handle_cert P st der_cert cert_type).current_index = st.current_index + 1 := by
  unfold handle_cert
  cases P.parse der_cert P.source with
  | none => rfl
  | some cert0 =>
    simp only
    split <;> (split <;> rfl)

lemma process_entry_ok_advance (P : PipelineParams) (st : LoopState) (entry : LogEntry)
    (st2 : LoopState) (h : process_entry P st entry = Except.ok st2) :
    st2.current_index = st.current_index + 1 := by
  unfold process_entry at h
  cases hg : get_cert_from_leaf entry.leaf_input with
  | error e =>
    rw [hg] at h
    cases h
  | ok p =>
    rw [hg] at h
    obtain ⟨d0, t⟩ := p
    simp only at h
    split at h
    · injection h with h2
      rw [← h2]
      rfl
    · split at h
      · injection h with h2
        rw [← h2]
        rfl
      · split at h
        · injection h with h2
          rw [← h2]
          exact handle_cert_current_index P st _ _
        · injection h with h2
          rw [← h2]
          exact handle_cert_current_index P st _ _

lemma get_cert_from_leaf_of_two_le (leaf : List Nat) (h2 : 2 ≤ leaf.length) :
    ∃ r, get_cert_from_leaf leaf = Except.ok r := by
  obtain ⟨v, t0, hvt⟩ := read_leaf_header_of_two_le leaf h2
  unfold get_cert_from_leaf
  rw [hvt]
  simp only
  by_cases hb : from_bytes (pySlice leaf 10 12) = 1
  · rw [if_pos hb]
    exact ⟨_, rfl⟩
  · rw [if_neg hb]
    by_cases hc : (from_bytes (pySlice (leaf.drop 12) 0 3) : Int) ≠
        (((leaf.drop 12).drop 3).length : Int) - 2
    · rw [if_pos hc]
      exact ⟨_, rfl⟩
    · rw [if_neg hc]
      exact ⟨_, rfl⟩

lemma process_entry_total (P : PipelineParams) (st : LoopState) (entry : LogEntry)
    (h2 : 2 ≤ entry.leaf_input.length) :
    ∃ st2, process_entry P st entry = Except.ok st2 := by
  obtain ⟨r, hr⟩ := get_cert_from_leaf_of_two_le entry.leaf_input h2
  unfold process_entry
  rw [hr]
  obtain ⟨d0, t⟩ := r
  simp only
  split
  · exact ⟨_, rfl⟩
  · split
    · exact ⟨_, rfl⟩
    · split
      · exact ⟨_, rfl⟩
      · exact ⟨_, rfl⟩

lemma foldlM_process_entry (P : PipelineParams) (l : List LogEntry) :
    ∀ st : LoopState, (∀ ent ∈ l, 2 ≤ ent.leaf_input.length) →
    ∃ st2, l.foldlM (process_entry P) st = Except.ok st2 ∧
      st2.current_index = st.current_index + l.length := by
  induction l with
  | nil =>
    intro st _
    exact ⟨st, rfl, by simp⟩
  | cons a as ih =>
    intro st h
    obtain ⟨st1, h1⟩ := process_entry_total P st a (h a (List.mem_cons_self _ _))
    obtain ⟨st2, hrun, hc2⟩ := ih st1 (fun e he => h e (List.mem_cons_of_mem _ he))
    refine ⟨st2, ?_, ?_⟩
    · rw [List.foldlM_cons, h1]
      exact hrun
    · have ha := process_entry_ok_advance P st a st1 h1
      rw [List.length_cons]
      omega

lemma crawl_loop_step (P : PipelineParams) (fetch : Nat → Nat → List LogEntry)
    (fuel tree_size : Nat) (st st2 : LoopState) (windows : List (Nat × Nat))
    (h : st.current_index < tree_size)
    (hf : (fetch st.current_index
        (if tree_size < st.current_index + 256 then tree_size
         else st.current_index + 256)).foldlM (process_entry P) st = Except.ok st2) :
    crawl_loop P fetch (fuel + 1) tree_size st windows =
      crawl_loop P fetch fuel tree_size st2
        (windows ++ [(st.current_index,
          if tree_size < st.current_index + 256 then tree_size
          else st.current_index + 256)]) := by
  conv_lhs => rw [crawl_loop]
  rw [if_pos h]
  simp only
  rw [hf]

lemma crawl_loop_done (P : PipelineParams) (fetch : Nat → Nat → List LogEntry)
    (fuel tree_size : Nat) (st : LoopState) (windows : List (Nat × Nat))
    (h : ¬ st.current_index < tree_size) :
    crawl_loop P fetch (fuel + 1) tree_size st windows = Except.ok (st, windows) := by
  rw [crawl_loop, if_neg h]

/-- Claim C1, amended: every entry whose processing completes advances the
cursor by exactly one regardless of decode, parse, or filter outcome; and in
the concrete scenario — tree size 300, starting index 0, every window served
with one entry per index, each decoded leaf at least 2 bytes (length-check
failures included) — exactly two batch windows `[0,256]` and `[256,300]` are
fetched and the cursor reaches 300 at loop end. -/
theorem crawl_loop_advances_one_per_entry :
    (∀ (P : PipelineParams) (st : LoopState) (entry : LogEntry) (st2 : LoopState),
      process_entry P st entry = Except.ok st2 →
      st2.current_index = st.current_index + 1) ∧
    (∀ (P : PipelineParams) (fetch : Nat → Nat → List LogEntry) (st0 : LoopState),
      (∀ s e, (fetch s e).length = e - s) →
      (∀ s e ent, ent ∈ fetch s e → 2 ≤ ent.leaf_input.length) →
      st0.current_index = 0 →
      ∃ stF, crawl_loop P fetch 3 300 st0 [] =
          Except.ok (stF, [(0, 256), (256, 300)]) ∧ stF.current_index = 300) := by
  constructor
  · exact fun P st entry st2 h => process_entry_ok_advance P st entry st2 h
  · intro P fetch st0 hlen hsafe h0
    obtain ⟨ci0, store0⟩ := st0
    simp only at h0
    subst h0
    have hwin1 : (if 300 < (0 : Nat) + 256 then (300 : Nat) else 0 + 256) = 256 := by
      norm_num
    obtain ⟨st1, hf1, hc1⟩ :=
      foldlM_process_entry P (fetch 0 256) ⟨0, store0⟩ (fun ent he => hsafe 0 256 ent he)
    obtain ⟨ci1, store1⟩ := st1
    simp only at hc1
    have hlen1 := hlen 0 256
    have hc1b : ci1 = 256 := by omega
    subst hc1b
    have hstep1 := crawl_loop_step P fetch 2 300 ⟨0, store0⟩ ⟨256, store1⟩ [] (by norm_num)
      (by rw [hwin1]; exact hf1)
    rw [hwin1] at hstep1
    have hwin2 : (if 300 < (256 : Nat) + 256 then (300 : Nat) else 256 + 256) = 300 := by
      norm_num
    obtain ⟨st2, hf2, hc2⟩ :=
      foldlM_process_entry P (fetch 256 300) ⟨256, store1⟩
        (fun ent he => hsafe 256 300 ent he)
    obtain ⟨ci2, store2⟩ := st2
    simp only at hc2
    have hlen2 := hlen 256 300
    have hc2b : ci2 = 300 := by omega
    subst hc2b
    have hstep2 := crawl_loop_step P fetch 1 300 ⟨256, store1⟩ ⟨300, store2⟩ [(0, 256)]
      (by norm_num) (by rw [hwin2]; exact hf2)
    rw [hwin2] at hstep2
    have hdone := crawl_loop_done P fetch 0 300 ⟨300, store2⟩ [(0, 256), (256, 300)]
      (by norm_num)
    refine ⟨⟨300, store2⟩, ?_, rfl⟩
    calc crawl_loop P fetch 3 300 ⟨0, store0⟩ []
        = crawl_loop P fetch 2 300 ⟨256, store1⟩ [(0, 256)] := hstep1
      _ = crawl_loop P fetch 1 300 ⟨300, store2⟩ [(0, 256), (256, 300)] := hstep2
      _ = Except.ok (⟨300, store2⟩, [(0, 256), (256, 300)]) := hdone

/-- Claim C1, counterexample: an entry whose decoded `leaf_input` is empty
makes the loop abort with an unhandled IndexError — the cursor does not
advance past it and never reaches the tree size, although the batch oracle
serves exactly one entry per index of each window as the claim assumes. -/
theorem crawl_loop_empty_leaf_counterexample :
    (∀ s e, (fetchEmptyLeaf s e).length = e - s) ∧
    crawl_loop skipParams fetchEmptyLeaf 3 1 { current_index := 0, store := [] } [] =
      Except.error "IndexError" ∧
    ∀ stF windows,
      crawl_loop skipParams fetchEmptyLeaf 3 1 { current_index := 0, store := [] } [] ≠
        Except.ok (stF, windows) := by
  refine ⟨?_, rfl, ?_⟩
  · intro s e
    simp [fetchEmptyLeaf]
  · intro stF windows hok
    have h1 : crawl_loop skipParams fetchEmptyLeaf 3 1 { current_index := 0, store := [] } [] =
        Except.error "IndexError" := rfl
    rw [h1] at hok
    exact Except.noConfusion hok

/-- Claim C1, witness: the two-window scenario run with a batch oracle whose
every entry is a 12-byte X.509 leaf failing its length check (so every entry
is skipped yet the cursor still reaches 300 after windows `[0,256]` and
`[256,300]`). -/
theorem crawl_loop_advances_witness :
    (∀ s e, (fetchMismatch s e).length = e - s) ∧
    ∃ stF, crawl_loop skipParams fetchMismatch 3 300 { current_index := 0, store := [] } [] =
        Except.ok (stF, [(0, 256), (256, 300)]) ∧ stF.current_index = 300 := by
  have hl : ∀ s e, (fetchMismatch s e).length = e - s := by
    intro s e
    simp [fetchMismatch]
  have hs : ∀ s e ent, ent ∈ fetchMismatch s e → 2 ≤ ent.leaf_input.length := by
    intro s e ent h
    simp only [fetchMismatch, List.mem_map] at h
    obtain ⟨x, _, hx⟩ := h
    rw [← hx]
    decide
  exact ⟨hl, crawl_loop_advances_one_per_entry.2 skipParams fetchMismatch
    { current_index := 0, store := [] } hl hs rfl⟩
